import Mathlib

/-!
# Verification of the Binance Prometheus exporter's exchange client

Shallow embedding of the Go package `internal/binance` (client construction,
request signing, request building, the status gate and the asset cache) and
proofs about it.  Machine integers are modelled as `Nat` reduced mod `2 ^ 32`
where the Go code computes on `uint32`; byte strings are `List Nat` with each
element a byte value.
-/

namespace Binance

/-! ## Bytes and 32-bit words

`crypto/sha256` works on `uint32` words; we model a word as a `Nat` kept
below `2 ^ 32` by explicit reduction. -/

/-- Reduce to a 32-bit word, as Go's `uint32` arithmetic does implicitly. -/
def w32 (x : Nat) : Nat := x % 4294967296

/-- 32-bit addition with wraparound (`+` on Go `uint32`). -/
def add32 (a b : Nat) : Nat := (a + b) % 4294967296

/-- 32-bit right rotation (`bits.RotateLeft32(x, -n)` used by `crypto/sha256`). -/
def rotr32 (n x : Nat) : Nat := w32 ((x >>> n) ||| (x <<< (32 - n)))

/-- UTF-8 encoding of one character, as Go's `[]byte(string)` conversion
produces for a valid code point. -/
def utf8EncodeChar (c : Char) : List Nat :=
  let n := c.toNat
  if n < 128 then [n]
  else if n < 2048 then [192 ||| (n >>> 6), 128 ||| (n &&& 63)]
  else if n < 65536 then
    [224 ||| (n >>> 12), 128 ||| ((n >>> 6) &&& 63), 128 ||| (n &&& 63)]
  else
    [240 ||| (n >>> 18), 128 ||| ((n >>> 12) &&& 63),
     128 ||| ((n >>> 6) &&& 63), 128 ||| (n &&& 63)]

/-- The UTF-8 bytes of a string — Go's `[]byte(s)`. -/
def utf8Bytes (s : String) : List Nat :=
  (s.data.map utf8EncodeChar).flatten

/-! ## SHA-256 (`crypto/sha256`) -/

/-- The 64 SHA-256 round constants (FIPS 180-4, written in decimal). -/
def sha256K : List Nat :=
  [1116352408, 1899447441, 3049323471, 3921009573, 961987163,
   1508970993, 2453635748, 2870763221, 3624381080, 310598401,
   607225278, 1426881987, 1925078388, 2162078206, 2614888103,
   3248222580, 3835390401, 4022224774, 264347078, 604807628,
   770255983, 1249150122, 1555081692, 1996064986, 2554220882,
   2821834349, 2952996808, 3210313671, 3336571891, 3584528711,
   113926993, 338241895, 666307205, 773529912, 1294757372,
   1396182291, 1695183700, 1986661051, 2177026350, 2456956037,
   2730485921, 2820302411, 3259730800, 3345764771, 3516065817,
   3600352804, 4094571909, 275423344, 430227734, 506948616,
   659060556, 883997877, 958139571, 1322822218, 1537002063,
   1747873779, 1955562222, 2024104815, 2227730452, 2361852424,
   2428436474, 2756734187, 3204031479, 3329325298]

/-- The SHA-256 initial hash value (FIPS 180-4, written in decimal). -/
def sha256H0 : List Nat :=
  [1779033703, 3144134277, 1013904242, 2773480762,
   1359893119, 2600822924, 528734635, 1541459225]

def shaCh (x y z : Nat) : Nat := (x &&& y) ^^^ ((x ^^^ 0xffffffff) &&& z)

def shaMaj (x y z : Nat) : Nat := (x &&& y) ^^^ (x &&& z) ^^^ (y &&& z)

def bigSigma0 (x : Nat) : Nat := rotr32 2 x ^^^ rotr32 13 x ^^^ rotr32 22 x

def bigSigma1 (x : Nat) : Nat := rotr32 6 x ^^^ rotr32 11 x ^^^ rotr32 25 x

def smallSigma0 (x : Nat) : Nat := rotr32 7 x ^^^ rotr32 18 x ^^^ (x >>> 3)

def smallSigma1 (x : Nat) : Nat := rotr32 17 x ^^^ rotr32 19 x ^^^ (x >>> 10)

/-- Group bytes into big-endian 32-bit words. -/
def bytesToWords : List Nat → List Nat
  | b0 :: b1 :: b2 :: b3 :: rest =>
      ((b0 <<< 24) ||| (b1 <<< 16) ||| (b2 <<< 8) ||| b3) :: bytesToWords rest
  | _ => []

/-- Big-endian bytes of one 32-bit word. -/
def wordToBytes (w : Nat) : List Nat :=
  [(w >>> 24) % 256, (w >>> 16) % 256, (w >>> 8) % 256, w % 256]

/-- Big-endian bytes of the 64-bit bit-length field. -/
def lenToBytes (bitLen : Nat) : List Nat :=
  [(bitLen >>> 56) % 256, (bitLen >>> 48) % 256, (bitLen >>> 40) % 256,
   (bitLen >>> 32) % 256, (bitLen >>> 24) % 256, (bitLen >>> 16) % 256,
   (bitLen >>> 8) % 256, bitLen % 256]

/-- SHA-256 message padding: a `0x80` byte, zeros to 56 mod 64, then the
64-bit big-endian message bit length. -/
def sha256pad (msg : List Nat) : List Nat :=
  let len := msg.length
  let zeros := (64 - (len + 9) % 64) % 64
  msg ++ [0x80] ++ List.replicate zeros 0 ++ lenToBytes (len * 8)

/-- Split a byte list into 64-byte blocks (fuel-driven). -/
def chunk64 : Nat → List Nat → List (List Nat)
  | 0, _ => []
  | _, [] => []
  | fuel + 1, l => l.take 64 :: chunk64 fuel (l.drop 64)

/-- Extend the message schedule by one word. -/
def extendW (w : List Nat) : List Nat :=
  let n := w.length
  w ++ [add32 (add32 (smallSigma1 (w.getD (n - 2) 0)) (w.getD (n - 7) 0))
              (add32 (smallSigma0 (w.getD (n - 15) 0)) (w.getD (n - 16) 0))]

/-- The full 64-word message schedule of one block. -/
def msgSchedule (block : List Nat) : List Nat :=
  (List.range 48).foldl (fun w _ => extendW w) block

/-- One SHA-256 compression round on the state `[a, b, c, d, e, f, g, h]`. -/
def roundStep (st : List Nat) (kw : Nat × Nat) : List Nat :=
  match st with
  | [a, b, c, d, e, f, g, h] =>
      let t1 := add32 (add32 (add32 h (bigSigma1 e)) (add32 (shaCh e f g) kw.1)) kw.2
      let t2 := add32 (bigSigma0 a) (shaMaj a b c)
      [add32 t1 t2, a, b, c, add32 d t1, e, f, g]
  | other => other

/-- Compress one 16-word block into the running hash state. -/
def compressBlock (h : List Nat) (block : List Nat) : List Nat :=
  let w := msgSchedule block
  let st := (sha256K.zip w).foldl roundStep h
  (h.zip st).map fun p => add32 p.1 p.2

/-- SHA-256 of a byte string, as `crypto/sha256` computes it. -/
def sha256bytes (msg : List Nat) : List Nat :=
  let padded := sha256pad msg
  let blocks := chunk64 padded.length padded
  let hh := blocks.foldl (fun h b => compressBlock h (bytesToWords b)) sha256H0
  (hh.map wordToBytes).flatten

/-! ## HMAC (`crypto/hmac`) and hex encoding (`encoding/hex`)

`hmac.New(sha256.New, key)` is modelled as a state holding the two pads and
the bytes written so far to the inner hash; `Write` appends, `Sum` finishes
both hashes.  The SHA-256 block size is 64 bytes. -/

structure HMAC where
  ipad : List Nat
  opad : List Nat
  inner : List Nat
deriving DecidableEq

/-- `hmac.New(sha256.New, key)`: a key longer than the block size is hashed
first, then zero-padded to 64 bytes; the pads are the padded key xored with
`0x36` / `0x5c`, and the inner hash starts out fed with the inner pad. -/
def hmacNew (key : List Nat) : HMAC :=
  let k := if 64 < key.length then sha256bytes key else key
  let kp := k ++ List.replicate (64 - k.length) 0
  let ip := kp.map fun b => b ^^^ 0x36
  let op := kp.map fun b => b ^^^ 0x5c
  { ipad := ip, opad := op, inner := ip }

/-- `mac.Reset()`: the inner hash is re-fed with the inner pad only. -/
def hmacReset (m : HMAC) : HMAC := { m with inner := m.ipad }

/-- `mac.Write(p)`: append to the inner hash input. -/
def hmacWrite (m : HMAC) (p : List Nat) : HMAC := { m with inner := m.inner ++ p }

/-- `mac.Sum(nil)`: finish the inner hash, feed the outer pad and the inner
digest to the outer hash, finish it. -/
def hmacSum (m : HMAC) : List Nat := sha256bytes (m.opad ++ sha256bytes m.inner)

/-- One lowercase hexadecimal digit (`encoding/hex` uses `"0123456789abcdef"`). -/
def hexDigit (n : Nat) : Char :=
  if n < 10 then Char.ofNat (48 + n) else Char.ofNat (87 + n)

/-- Two lowercase hex digits of one byte. -/
def hexByte (b : Nat) : List Char := [hexDigit ((b / 16) % 16), hexDigit (b % 16)]

/-- `hex.EncodeToString`: lowercase hexadecimal encoding of a byte string. -/
def hexEncode (bs : List Nat) : String := String.mk (bs.map hexByte).flatten

/-! ## The Signer (`security.generateSignature`, src/unnamed/part_001) -/

/-- `security.generateSignature`: builds an HMAC-SHA256 over the payload
keyed with the private key, exactly as the Go method does —
`mac := hmac.New(sha256.New, []byte(s.PrivateKey)); mac.Reset();
mac.Write([]byte(payload)); hex.EncodeToString(mac.Sum(nil))`. -/
def generateSignature (privateKey : String) (payload : String) : String :=
  let mac := hmacNew (utf8Bytes privateKey)
  let mac := hmacReset mac
  let mac := hmacWrite mac (utf8Bytes payload)
  hexEncode (hmacSum mac)

/-- The textbook one-shot HMAC-SHA256 formula
`H((k xor opad) ++ H((k xor ipad) ++ msg))` with the key hashed when longer
than one block and zero-padded to the block size — the spec's
"keyed-hash (HMAC) digest over the UTF-8 bytes of payload with secret as
key", written independently of the stateful embedding above. -/
def hmacSha256spec (key msg : List Nat) : List Nat :=
  let k := if 64 < key.length then sha256bytes key else key
  let kp := k ++ List.replicate (64 - k.length) 0
  sha256bytes ((kp.map fun b => b ^^^ 0x5c) ++
    sha256bytes ((kp.map fun b => b ^^^ 0x36) ++ msg))

/-- A lowercase hexadecimal digit character. -/
def isLowerHexChar (c : Char) : Bool :=
  (48 ≤ c.toNat && c.toNat ≤ 57) || (97 ≤ c.toNat && c.toNat ≤ 102)

/-! ## Signed-request assembly (`Client.signrequest`, src/unnamed/part_001)

Go's `strings.Split(uri, "?")` splits at *every* occurrence of the
separator; `splitOnChar` mirrors that on character lists. -/

/-- `strings.Split(s, sep)` for a one-character separator: the maximal
segments of `s` between occurrences of `sep` (never empty as a list). -/
def splitOnChar (sep : Char) : List Char → List (List Char)
  | [] => [[]]
  | c :: rest =>
      if c = sep then [] :: splitOnChar sep rest
      else
        match splitOnChar sep rest with
        | [] => [[c]]
        | h :: t => (c :: h) :: t

/-- The payload `signrequest` signs: `timestamp=<now>` when the uri has no
query string (`len(extracted) == 1`), else
`<extracted[1]>&timestamp=<now>` — `extracted[1]` is the segment between
the first and second `?`.  `nowMillis` stands for
`time.Now().UnixMilli()` formatted with `%d`. -/
def signablePayload (uri : String) (nowMillis : Nat) : String :=
  let ts := Nat.repr nowMillis
  match splitOnChar '?' uri.data with
  | [] => "timestamp=" ++ ts
  | [_] => "timestamp=" ++ ts
  | _ :: q :: _ => String.mk q ++ "&timestamp=" ++ ts

/-- The root part `signrequest` keeps: the whole uri when it has no `?`,
else `extracted[0]`, the segment before the first `?`. -/
def signRoot (uri : String) : String :=
  match splitOnChar '?' uri.data with
  | [] => uri
  | [_] => uri
  | r :: _ :: _ => String.mk r

/-- `Client.signrequest`: re-assembles the uri as
`<root>?<payload>&signature=<hmac of payload>`. -/
def signrequest (privateKey : String) (uri : String) (nowMillis : Nat) : String :=
  let newUri := signablePayload uri nowMillis
  let signature := generateSignature privateKey newUri
  signRoot uri ++ "?" ++ newUri ++ "&signature=" ++ signature

/-! ## Request building (`buildGetRequest`, `buildPostRequest`, `buildURL`)

`http.NewRequestWithContext` lives in the Go standard library; its outcome
(success, or a URL-construction error with a nil request) is passed in as the
`ctorErr` argument.  Its documented contract is that the returned request is
nil exactly when the error is non-nil, so on `some e` the very next source
line `r.Header.Set(...)` dereferences a nil pointer: the embedding returns a
`GoPanic` for that execution.  `context.WithTimeout(ctx, time.Second*3)` is
modelled by the request's `timeoutMillis` field plus a cancel handle tracked
by the `cancelCalled` flag of each operation's trace. -/

inductive GoErr
  | urlError
  | transportError
  | decodeError
deriving DecidableEq

inductive GoPanic
  | nilDereference
deriving DecidableEq

structure Request where
  method : String
  url : String
  header : List (String × String)
  timeoutMillis : Nat
deriving DecidableEq

structure BuiltRequest where
  req : Request
  err : Option GoErr
deriving DecidableEq

/-- `endpoints`, the package-level array of published hosts. -/
def endpoints : List String :=
  ["https://api.binance.com", "https://api-gcp.binance.com",
   "https://api1.binance.com", "https://api2.binance.com",
   "https://api3.binance.com", "https://api4.binance.com"]

/-- `buildURL`: `fmt.Sprintf("%s/%s", endpoints[1], url)`. -/
def buildURL (url : String) : String := endpoints.getD 1 "" ++ "/" ++ url

/-- `Client.buildGetRequest`: 3-second context, GET request to
`buildURL path`, then `r.Header.Set("X-MBX-APIKEY", ...)` *before* the
error is examined — a nil dereference when construction failed. -/
def buildGetRequest (publicKey : String) (path : String) (ctorErr : Option GoErr) :
    Except GoPanic BuiltRequest :=
  match ctorErr with
  | some _ => .error .nilDereference
  | none =>
      let r : Request :=
        { method := "GET", url := buildURL path, header := [], timeoutMillis := 3000 }
      .ok { req := { r with header := [("X-MBX-APIKEY", publicKey)] }, err := none }

/-- `Client.buildPostRequest`: signs the path first, then builds a POST the
same way (with the same unconditional `r.Header.Set`). -/
def buildPostRequest (publicKey privateKey : String) (path : String) (nowMillis : Nat)
    (ctorErr : Option GoErr) : Except GoPanic BuiltRequest :=
  let signedUrl := signrequest privateKey path nowMillis
  match ctorErr with
  | some _ => .error .nilDereference
  | none =>
      let r : Request :=
        { method := "POST", url := buildURL signedUrl, header := [], timeoutMillis := 3000 }
      .ok { req := { r with header := [("X-MBX-APIKEY", publicKey)] }, err := none }

/-! ## Wire data (`definitions.go` / src/unnamed/part_000) -/

/-- `SystemStatus` is a Go `uint`; `Online` and `Maintenance` are its two
named constants (`iota` values 0 and 1), but any decoded unsigned value
inhabits the type. -/
abbrev SystemStatus := Nat

/-- `Online SystemStatus = iota` — the zero value. -/
def Online : SystemStatus := 0

/-- `Maintenance` — `iota` value 1. -/
def Maintenance : SystemStatus := 1

/-- `APIStatus` as declared in the package. -/
structure APIStatus where
  status : SystemStatus
  message : String
deriving DecidableEq

/-- `Asset`: all amounts are decimal strings on the wire. -/
structure Asset where
  asset : String
  free : String
  locked : String
  freeze : String
  withdrawing : String
  ipoable : String
  btcValuation : String
deriving DecidableEq

/-! ## JSON decoding (`encoding/json`, standard library)

`json.Decoder.Decode` into a struct either fails, or succeeds leaving every
absent field at its Go zero value.  A response body is therefore modelled as
either `malformed` (decode returns an error) or an object carrying the
optional fields the target struct looks at; the empty JSON object `{}` is
`.obj none none`. -/

inductive StatusBody
  | malformed
  | obj (status : Option Nat) (msg : Option String)
deriving DecidableEq

/-- Decoding a body into `&APIStatus{}`: absent fields keep their zero
values (`0` for the `uint` status, `""` for the message). -/
def decodeAPIStatus : StatusBody → Except GoErr APIStatus
  | .malformed => .error .decodeError
  | .obj st ms => .ok { status := st.getD 0, message := ms.getD "" }

inductive AssetsBody
  | malformed
  | arr (assets : List Asset)
deriving DecidableEq

/-- Decoding a body into `&[]Asset`. -/
def decodeAssets : AssetsBody → Except GoErr (List Asset)
  | .malformed => .error .decodeError
  | .arr as => .ok as

/-- Outcome of `httpclient.Do(req)`: a transport error, or a response with a
status code and a body. -/
inductive TransportResult (β : Type)
  | err (e : GoErr)
  | resp (statusCode : Nat) (body : β)
deriving DecidableEq

/-! ## The status gate (`Client.GetSystemStatus`) -/

/-- Return value of `GetSystemStatus` plus whether the request's cancel
handle ran before the return. -/
structure StatusTrace where
  result : SystemStatus × Option GoErr
  cancelCalled : Bool
deriving DecidableEq

/-- `Client.GetSystemStatus`, line by line: build the GET request, check the
build error (returning `(Maintenance, err)` *without* having deferred
`cancel()` yet), `defer cancel()`, run the transport, fail to
`(Maintenance, err)` on transport error, decode into `&APIStatus{}`, fail to
`(Maintenance, err)` on decode error, else return `(status.Status, nil)`.
The response status code is logged but never branched on. -/
def GetSystemStatus (publicKey : String) (ctorErr : Option GoErr)
    (transport : TransportResult StatusBody) : Except GoPanic StatusTrace :=
  match buildGetRequest publicKey "sapi/v1/system/status" ctorErr with
  | .error p => .error p
  | .ok built =>
    match built.err with
    | some e => .ok { result := (Maintenance, some e), cancelCalled := false }
    | none =>
      match transport with
      | .err e => .ok { result := (Maintenance, some e), cancelCalled := true }
      | .resp _ body =>
        match decodeAPIStatus body with
        | .error e => .ok { result := (Maintenance, some e), cancelCalled := true }
        | .ok st => .ok { result := (st.status, none), cancelCalled := true }

/-! ## The asset refreshes (`Client.GetFundingWallet`, `Client.GetUserAssets`) -/

/-- The two cached partitions of the client (`c.funding.Assets`,
`c.spot.Assets`). -/
structure ClientAssets where
  funding : List Asset
  spot : List Asset
deriving DecidableEq

/-- Partition state after a refresh plus whether the cancel handle ran. -/
structure RefreshTrace where
  state : ClientAssets
  cancelCalled : Bool
deriving DecidableEq

/-- `Client.GetFundingWallet`: build the signed POST (early plain `return`
on build error, before `defer cancel()`), run the transport, bail out on
transport error, on a status code other than 200, and on decode error —
each time leaving both partitions untouched — else replace
`c.funding.Assets` wholesale with the decoded array. -/
def GetFundingWallet (publicKey privateKey : String) (nowMillis : Nat)
    (st : ClientAssets) (ctorErr : Option GoErr)
    (transport : TransportResult AssetsBody) : Except GoPanic RefreshTrace :=
  match buildPostRequest publicKey privateKey "sapi/v1/asset/get-funding-asset"
      nowMillis ctorErr with
  | .error p => .error p
  | .ok built =>
    match built.err with
    | some _ => .ok { state := st, cancelCalled := false }
    | none =>
      match transport with
      | .err _ => .ok { state := st, cancelCalled := true }
      | .resp code body =>
        if code ≠ 200 then .ok { state := st, cancelCalled := true }
        else
          match decodeAssets body with
          | .error _ => .ok { state := st, cancelCalled := true }
          | .ok assets =>
              .ok { state := { st with funding := assets }, cancelCalled := true }

/-- `Client.GetUserAssets`: identical control flow against
`sapi/v3/asset/getUserAsset`, writing the spot partition. -/
def GetUserAssets (publicKey privateKey : String) (nowMillis : Nat)
    (st : ClientAssets) (ctorErr : Option GoErr)
    (transport : TransportResult AssetsBody) : Except GoPanic RefreshTrace :=
  match buildPostRequest publicKey privateKey "sapi/v3/asset/getUserAsset"
      nowMillis ctorErr with
  | .error p => .error p
  | .ok built =>
    match built.err with
    | some _ => .ok { state := st, cancelCalled := false }
    | none =>
      match transport with
      | .err _ => .ok { state := st, cancelCalled := true }
      | .resp code body =>
        if code ≠ 200 then .ok { state := st, cancelCalled := true }
        else
          match decodeAssets body with
          | .error _ => .ok { state := st, cancelCalled := true }
          | .ok assets =>
              .ok { state := { st with spot := assets }, cancelCalled := true }

/-! ## Client construction (`NewBinanceClient`) -/

/-- The part of the constructed `Client` the spec talks about: the stored
credentials and the two partitions. -/
structure ClientInit where
  publicKey : String
  privateKey : String
  funding : List Asset
  spot : List Asset
deriving DecidableEq

/-- Result of `NewBinanceClient`: either `os.Exit(code)` or a client value.
The two keys are what `subenv.Env` sourced from the environment. -/
inductive NewClientResult
  | exited (code : Nat)
  | ok (c : ClientInit)
deriving DecidableEq

/-- `NewBinanceClient`: abort with exit code 1 when the private key is
empty, then when the public key is empty; otherwise build the client with
the sourced keys and `make([]Asset, 0)` for both partitions. -/
def NewBinanceClient (privKey : String) (pubkey : String) : NewClientResult :=
  if privKey.length == 0 then .exited 1
  else if pubkey.length == 0 then .exited 1
  else .ok { publicKey := pubkey, privateKey := privKey, funding := [], spot := [] }

/-! ## Slice memory model for the cache reads

`GetSpotAssets` / `GetFundingAssets` run
`var res []Asset; res = append(res, c.<part>.Assets...)` under the read
lock.  Appending to a nil slice allocates a fresh backing array and copies
the elements, so the returned slice never aliases the cache's array.  To
state that, backing arrays live in an explicit store `Mem` and a slice is
the index of its array; the cache's partition is one such index. -/

structure Mem where
  arrays : List (List Asset)
deriving DecidableEq

/-- Contents of the backing array a slice points at. -/
def Mem.get (m : Mem) (i : Nat) : List Asset := m.arrays.getD i []

/-- Allocate a fresh backing array with the given contents; returns the new
store and the new array's index. -/
def Mem.alloc (m : Mem) (xs : List Asset) : Mem × Nat :=
  ({ arrays := m.arrays ++ [xs] }, m.arrays.length)

/-- Overwrite the backing array a slice points at — what a caller mutating
a returned slice does. -/
def Mem.write (m : Mem) (i : Nat) (xs : List Asset) : Mem :=
  { arrays := m.arrays.set i xs }

/-- `Client.GetSpotAssets`: copy every element of the spot partition's array
into a freshly allocated one and return that slice. -/
def GetSpotAssets (m : Mem) (spotArr : Nat) : Mem × Nat := m.alloc (m.get spotArr)

/-- `Client.GetFundingAssets`: the same copy for the funding partition. -/
def GetFundingAssets (m : Mem) (fundingArr : Nat) : Mem × Nat := m.alloc (m.get fundingArr)

/-- What a refresh call fetches, read off the spec's error taxonomy: `none`
on transport error, on a non-200 status and on decode error, the decoded
array on success. -/
def fetchedAssets : TransportResult AssetsBody → Option (List Asset)
  | .err _ => none
  | .resp code body =>
      if code = 200 then
        match body with
        | .malformed => none
        | .arr as => some as
      else none

/-! ## Helper lemmas -/

theorem splitOnChar_not_mem (sep : Char) (l : List Char) (h : sep ∉ l) :
    splitOnChar sep l = [l] := by
  induction l with
  | nil => rfl
  | cons c rest ih =>
    simp only [List.mem_cons, not_or] at h
    rw [splitOnChar, if_neg (fun hc => h.1 hc.symm), ih h.2]

theorem splitOnChar_append (sep : Char) (a rest : List Char) (h : sep ∉ a) :
    splitOnChar sep (a ++ sep :: rest) = a :: splitOnChar sep rest := by
  induction a with
  | nil => simp [splitOnChar]
  | cons c as ih =>
    simp only [List.mem_cons, not_or] at h
    rw [List.cons_append, splitOnChar, if_neg (fun hc => h.1 hc.symm), ih h.2]

theorem splitOnChar_ne_nil (sep : Char) (l : List Char) : splitOnChar sep l ≠ [] := by
  cases l with
  | nil => simp [splitOnChar]
  | cons c rest =>
    rw [splitOnChar]
    split
    · simp
    · cases h : splitOnChar sep rest <;> simp

theorem isLowerHexChar_hexDigit : ∀ n, n < 16 → isLowerHexChar (hexDigit n) = true := by
  decide

theorem hexEncode_all_lower (bs : List Nat) :
    (hexEncode bs).data.all isLowerHexChar = true := by
  rw [List.all_eq_true]
  intro c hc
  replace hc : c ∈ (bs.map hexByte).flatten := hc
  rw [List.mem_flatten] at hc
  obtain ⟨l, hl, hcl⟩ := hc
  rw [List.mem_map] at hl
  obtain ⟨b, _, rfl⟩ := hl
  replace hcl : c ∈ [hexDigit ((b / 16) % 16), hexDigit (b % 16)] := hcl
  simp only [List.mem_cons, List.not_mem_nil, or_false] at hcl
  rcases hcl with rfl | rfl
  · exact isLowerHexChar_hexDigit _ (Nat.mod_lt _ (by norm_num))
  · exact isLowerHexChar_hexDigit _ (Nat.mod_lt _ (by norm_num))

theorem memGetD_append_lt (l : List (List Asset)) (x : List Asset) (i : Nat) (d : List Asset)
    (h : i < l.length) : (l ++ [x]).getD i d = l.getD i d := by
  rw [List.getD_eq_getElem?_getD, List.getD_eq_getElem?_getD, List.getElem?_append_left h]

theorem memGetD_append_len (l : List (List Asset)) (x : List Asset) (d : List Asset) :
    (l ++ [x]).getD l.length d = x := by
  rw [List.getD_eq_getElem?_getD, List.getElem?_concat_length]
  rfl

theorem memGetD_set_ne (l : List (List Asset)) (x : List Asset) (i j : Nat) (d : List Asset)
    (h : i ≠ j) : (l.set i x).getD j d = l.getD j d := by
  rw [List.getD_eq_getElem?_getD, List.getD_eq_getElem?_getD, List.getElem?_set_ne h]

theorem mem_alloc_get_new (m : Mem) (xs : List Asset) :
    (m.alloc xs).1.get (m.alloc xs).2 = xs :=
  memGetD_append_len m.arrays xs []

theorem mem_alloc_get_old (m : Mem) (xs : List Asset) (i : Nat) (h : i < m.arrays.length) :
    (m.alloc xs).1.get i = m.get i :=
  memGetD_append_lt m.arrays xs i [] h

theorem mem_alloc_fresh (m : Mem) (xs : List Asset) (i : Nat) (h : i < m.arrays.length) :
    (m.alloc xs).2 ≠ i :=
  fun he => absurd (he ▸ h) (lt_irrefl _)

theorem mem_write_get_ne (m : Mem) (i j : Nat) (xs : List Asset) (h : i ≠ j) :
    (m.write i xs).get j = m.get j :=
  memGetD_set_ne m.arrays xs i j [] h

/-! ## Claim theorems -/

/-- Claim C1, counterexample: the claim promises the signable payload is
`<everything after the first ?>&timestamp=<now>`, but on the path
`"x?a=1?b=2"` with timestamp `5` the code signs `"a=1&timestamp=5"` —
`strings.Split` cuts at *every* `?` and only `extracted[1]` is kept, so
`?b=2` is dropped. -/
theorem signablePayload_counterexample :
    signablePayload "x?a=1?b=2" 5 = "a=1&timestamp=5" ∧
    signablePayload "x?a=1?b=2" 5 ≠ "a=1?b=2&timestamp=5" :=
  ⟨by decide, by decide⟩

/-- Claim C1 (amended): the signed-POST builder keeps everything before the
first `?` as the root; when the path has no `?` the signable payload is
exactly `timestamp=<now>`; when it has one, the payload is
`<segment between the first ? and the next ? (the whole remainder when the
path holds a single ?)>&timestamp=<now>`; and the final URL is
base-endpoint + "/" + root + "?" + payload + "&signature=" +
sign(privateKey, payload). -/
theorem signrequest_payload_url_amended (priv uri : String) (now : Nat)
    (a b r : List Char) :
    ('?' ∉ uri.data →
       signablePayload uri now = "timestamp=" ++ Nat.repr now ∧ signRoot uri = uri) ∧
    ('?' ∉ a → '?' ∉ b →
       signablePayload (String.mk (a ++ '?' :: b)) now =
         String.mk b ++ "&timestamp=" ++ Nat.repr now ∧
       signablePayload (String.mk (a ++ '?' :: (b ++ '?' :: r))) now =
         String.mk b ++ "&timestamp=" ++ Nat.repr now) ∧
    ('?' ∉ a → signRoot (String.mk (a ++ '?' :: r)) = String.mk a) ∧
    buildURL (signrequest priv uri now) =
      endpoints.getD 1 "" ++ "/" ++ signRoot uri ++ "?" ++ signablePayload uri now ++
        "&signature=" ++ generateSignature priv (signablePayload uri now) := by
  refine ⟨fun h => ?_, fun ha hb => ?_, fun ha => ?_, ?_⟩
  · rw [signablePayload, signRoot, splitOnChar_not_mem '?' uri.data h]
    exact ⟨rfl, rfl⟩
  · constructor
    · rw [signablePayload]
      show (match splitOnChar '?' (a ++ '?' :: b) with
        | [] => "timestamp=" ++ Nat.repr now
        | [_] => "timestamp=" ++ Nat.repr now
        | _ :: q :: _ => String.mk q ++ "&timestamp=" ++ Nat.repr now) = _
      rw [splitOnChar_append '?' a b ha, splitOnChar_not_mem '?' b hb]
    · rw [signablePayload]
      show (match splitOnChar '?' (a ++ '?' :: (b ++ '?' :: r)) with
        | [] => "timestamp=" ++ Nat.repr now
        | [_] => "timestamp=" ++ Nat.repr now
        | _ :: q :: _ => String.mk q ++ "&timestamp=" ++ Nat.repr now) = _
      rw [splitOnChar_append '?' a _ ha, splitOnChar_append '?' b r hb]
  · rw [signRoot]
    show (match splitOnChar '?' (a ++ '?' :: r) with
      | [] => String.mk (a ++ '?' :: r)
      | [_] => String.mk (a ++ '?' :: r)
      | r0 :: _ :: _ => String.mk r0) = _
    rw [splitOnChar_append '?' a r ha]
    cases h : splitOnChar '?' r with
    | nil => exact absurd h (splitOnChar_ne_nil '?' r)
    | cons x t => rfl
  · rw [signrequest, buildURL]
    simp only [String.append_assoc]

/-- Claim C1 witness: on the concrete path `"x?a"` (one `?`) with timestamp
`7`, the amended theorem yields the payload `"a&timestamp=7"`. -/
theorem signrequest_payload_url_amended_witness :
    '?' ∉ ['x'] ∧ '?' ∉ ['a'] ∧
    signablePayload (String.mk (['x'] ++ '?' :: ['a'])) 7 =
      String.mk ['a'] ++ "&timestamp=" ++ Nat.repr 7 :=
  ⟨by decide, by decide,
    ((signrequest_payload_url_amended "sk" "x" 7 ['x'] ['a'] []).2.1
      (by decide) (by decide)).1⟩

/-- Claim C2: for each partition independently, a refresh that fails — by
transport error, by a status code other than 200, or by decode error —
returns with both partitions exactly as before the call, and a successful
refresh replaces the refreshed partition wholesale with the decoded array
while leaving the other partition unchanged. -/
theorem refresh_preserves_on_failure_replaces_on_success (pub priv : String)
    (now : Nat) (st : ClientAssets) (ctorErr : Option GoErr)
    (trA trB : TransportResult AssetsBody) (oF oS : RefreshTrace) :
    (GetFundingWallet pub priv now st ctorErr trA = .ok oF →
       oF.state.funding = (fetchedAssets trA).getD st.funding ∧
       oF.state.spot = st.spot) ∧
    (GetUserAssets pub priv now st ctorErr trB = .ok oS →
       oS.state.spot = (fetchedAssets trB).getD st.spot ∧
       oS.state.funding = st.funding) := by
  refine ⟨fun h => ?_, fun h => ?_⟩
  · cases ctorErr with
    | some e => cases h
    | none =>
      cases trA with
      | err e => injection h with h2; rw [← h2]; exact ⟨rfl, rfl⟩
      | resp code body =>
        simp only [GetFundingWallet, buildPostRequest] at h
        split at h
        · next hc =>
            injection h with h2
            rw [← h2]
            simp only [fetchedAssets]
            rw [if_neg hc]
            exact ⟨rfl, trivial⟩
        · next hc =>
            have hc2 : code = 200 := not_not.mp hc
            subst hc2
            cases body with
            | malformed => injection h with h2; rw [← h2]; exact ⟨rfl, rfl⟩
            | arr as => injection h with h2; rw [← h2]; exact ⟨rfl, rfl⟩
  · cases ctorErr with
    | some e => cases h
    | none =>
      cases trB with
      | err e => injection h with h2; rw [← h2]; exact ⟨rfl, rfl⟩
      | resp code body =>
        simp only [GetUserAssets, buildPostRequest] at h
        split at h
        · next hc =>
            injection h with h2
            rw [← h2]
            simp only [fetchedAssets]
            rw [if_neg hc]
            exact ⟨rfl, trivial⟩
        · next hc =>
            have hc2 : code = 200 := not_not.mp hc
            subst hc2
            cases body with
            | malformed => injection h with h2; rw [← h2]; exact ⟨rfl, rfl⟩
            | arr as => injection h with h2; rw [← h2]; exact ⟨rfl, rfl⟩

/-- A concrete asset used by witnesses. -/
def assetBTC : Asset := { asset := "BTC", free := "1", locked := "0", freeze := "0", withdrawing := "0", ipoable := "0", btcValuation := "1" }

/-- Claim C2 witness: a successful funding refresh at status 200 replaces
the (initially empty) funding partition with the decoded one-element
array. -/
theorem refresh_preserves_on_failure_replaces_on_success_witness :
    GetFundingWallet "pk" "sk" 1 { funding := [], spot := [] } none
        (.resp 200 (.arr [assetBTC])) =
      .ok { state := { funding := [assetBTC], spot := [] }, cancelCalled := true } ∧
    ({ state := { funding := [assetBTC], spot := [] },
       cancelCalled := true } : RefreshTrace).state.funding =
      (fetchedAssets (.resp 200 (.arr [assetBTC]))).getD [] :=
  ⟨rfl,
    ((refresh_preserves_on_failure_replaces_on_success "pk" "sk" 1
        { funding := [], spot := [] } none
        (.resp 200 (.arr [assetBTC]))
        (.err .transportError)
        { state := { funding := [assetBTC], spot := [] }, cancelCalled := true }
        { state := { funding := [], spot := [] }, cancelCalled := true }).1
      rfl).1⟩

/-- Claim C3: with the request built, `GetSystemStatus` returns
`(Maintenance, err)` with a non-nil error on a transport failure, returns
`(Maintenance, err)` with a non-nil error when the body fails to decode
into `APIStatus`, and returns `(status, nil)` for whatever status value the
decode produced when it succeeds. -/
theorem getSystemStatus_failsafe_paths (pub : String) (e : GoErr) (code : Nat)
    (body : StatusBody) :
    GetSystemStatus pub none (.err e) =
      .ok { result := (Maintenance, some e), cancelCalled := true } ∧
    (∀ e2, decodeAPIStatus body = .error e2 →
      GetSystemStatus pub none (.resp code body) =
        .ok { result := (Maintenance, some e2), cancelCalled := true }) ∧
    (∀ st, decodeAPIStatus body = .ok st →
      GetSystemStatus pub none (.resp code body) =
        .ok { result := (st.status, none), cancelCalled := true }) := by
  refine ⟨rfl, fun e2 h => ?_, fun st h => ?_⟩ <;> cases body <;> cases h <;> rfl

/-- Claim C3 witness: a body decoding to status `1` makes `GetSystemStatus`
return `(1, nil)`. -/
theorem getSystemStatus_failsafe_paths_witness :
    decodeAPIStatus (.obj (some 1) none) = .ok { status := 1, message := "" } ∧
    GetSystemStatus "pk" none (.resp 200 (.obj (some 1) none)) =
      .ok { result := (({ status := 1, message := "" } : APIStatus).status, none),
            cancelCalled := true } :=
  ⟨rfl, (getSystemStatus_failsafe_paths "pk" .transportError 200
      (.obj (some 1) none)).2.2 { status := 1, message := "" } rfl⟩

/-- Claim C4: `generateSignature` is deterministic (two calls on the same
`(secret, payload)` agree), always produces output (every input yields a
digest, an empty secret included), and its output is exactly the lowercase
hexadecimal encoding of the HMAC digest of the UTF-8 bytes of the payload
keyed with the secret, every character being a lowercase hex digit. -/
theorem generateSignature_hmac_lowercase_hex_deterministic (secret payload : String) :
    generateSignature secret payload = generateSignature secret payload ∧
    generateSignature secret payload =
      hexEncode (hmacSha256spec (utf8Bytes secret) (utf8Bytes payload)) ∧
    (generateSignature secret payload).data.all isLowerHexChar = true :=
  ⟨rfl, rfl,
    hexEncode_all_lower
      (hmacSum (hmacWrite (hmacReset (hmacNew (utf8Bytes secret))) (utf8Bytes payload)))⟩

/-- Claim C5: a cache read allocates a fresh backing array (distinct from
both partitions' arrays), copies the partition's snapshot into it, leaves
both partitions unchanged, and overwriting the returned slice's array never
changes the partition or what a subsequent read returns. -/
theorem read_returns_defensive_copy (m : Mem) (fundingArr spotArr : Nat)
    (hf : fundingArr < m.arrays.length) (hs : spotArr < m.arrays.length) :
    ((GetSpotAssets m spotArr).2 ≠ spotArr ∧
     (GetSpotAssets m spotArr).2 ≠ fundingArr ∧
     (GetSpotAssets m spotArr).1.get (GetSpotAssets m spotArr).2 = m.get spotArr ∧
     (GetSpotAssets m spotArr).1.get spotArr = m.get spotArr ∧
     (GetSpotAssets m spotArr).1.get fundingArr = m.get fundingArr ∧
     ∀ xs,
       ((GetSpotAssets m spotArr).1.write (GetSpotAssets m spotArr).2 xs).get spotArr
           = m.get spotArr ∧
       (GetSpotAssets
           ((GetSpotAssets m spotArr).1.write (GetSpotAssets m spotArr).2 xs)
           spotArr).1.get
         (GetSpotAssets
           ((GetSpotAssets m spotArr).1.write (GetSpotAssets m spotArr).2 xs)
           spotArr).2 = m.get spotArr) ∧
    ((GetFundingAssets m fundingArr).2 ≠ fundingArr ∧
     (GetFundingAssets m fundingArr).2 ≠ spotArr ∧
     (GetFundingAssets m fundingArr).1.get (GetFundingAssets m fundingArr).2
         = m.get fundingArr ∧
     (GetFundingAssets m fundingArr).1.get fundingArr = m.get fundingArr ∧
     (GetFundingAssets m fundingArr).1.get spotArr = m.get spotArr ∧
     ∀ xs,
       ((GetFundingAssets m fundingArr).1.write (GetFundingAssets m fundingArr).2 xs).get
           fundingArr = m.get fundingArr ∧
       (GetFundingAssets
           ((GetFundingAssets m fundingArr).1.write (GetFundingAssets m fundingArr).2 xs)
           fundingArr).1.get
         (GetFundingAssets
           ((GetFundingAssets m fundingArr).1.write (GetFundingAssets m fundingArr).2 xs)
           fundingArr).2 = m.get fundingArr) := by
  simp only [GetSpotAssets, GetFundingAssets]
  have hwS : ∀ xs,
      (((m.alloc (m.get spotArr)).1.write (m.alloc (m.get spotArr)).2 xs).get spotArr)
        = m.get spotArr := fun xs => by
    rw [mem_write_get_ne _ _ _ _ (mem_alloc_fresh m _ spotArr hs),
      mem_alloc_get_old m _ spotArr hs]
  have hwF : ∀ xs,
      (((m.alloc (m.get fundingArr)).1.write (m.alloc (m.get fundingArr)).2 xs).get
        fundingArr) = m.get fundingArr := fun xs => by
    rw [mem_write_get_ne _ _ _ _ (mem_alloc_fresh m _ fundingArr hf),
      mem_alloc_get_old m _ fundingArr hf]
  refine ⟨⟨mem_alloc_fresh m _ spotArr hs, mem_alloc_fresh m _ fundingArr hf,
      mem_alloc_get_new m _, mem_alloc_get_old m _ spotArr hs,
      mem_alloc_get_old m _ fundingArr hf, fun xs => ⟨hwS xs, ?_⟩⟩,
    ⟨mem_alloc_fresh m _ fundingArr hf, mem_alloc_fresh m _ spotArr hs,
      mem_alloc_get_new m _, mem_alloc_get_old m _ fundingArr hf,
      mem_alloc_get_old m _ spotArr hs, fun xs => ⟨hwF xs, ?_⟩⟩⟩
  · rw [mem_alloc_get_new, hwS xs]
  · rw [mem_alloc_get_new, hwF xs]

/-- Claim C5 witness: with two allocated partitions, the slice returned by
the spot read is a different array from the spot partition's. -/
theorem read_returns_defensive_copy_witness :
    0 < ({ arrays := [[], []] } : Mem).arrays.length ∧
    1 < ({ arrays := [[], []] } : Mem).arrays.length ∧
    (GetSpotAssets { arrays := [[], []] } 1).2 ≠ 1 :=
  ⟨by decide, by decide,
    (read_returns_defensive_copy { arrays := [[], []] } 0 1
      (by decide) (by decide)).1.1⟩

/-- Claim C6, bug witness: when `http.NewRequestWithContext` fails (its
request is nil exactly then), both builders run `r.Header.Set` on the nil
request before anyone checks the error, so every caller panics with a nil
dereference instead of receiving the error value the claim (and the code's
own `if err != nil` checks) promise. -/
theorem request_construction_failure_panics (pub priv path : String) (now : Nat)
    (e : GoErr) (trS : TransportResult StatusBody) (trA trB : TransportResult AssetsBody)
    (st : ClientAssets) :
    buildGetRequest pub path (some e) = .error .nilDereference ∧
    buildPostRequest pub priv path now (some e) = .error .nilDereference ∧
    GetSystemStatus pub (some e) trS = .error .nilDereference ∧
    GetFundingWallet pub priv now st (some e) trA = .error .nilDereference ∧
    GetUserAssets pub priv now st (some e) trB = .error .nilDereference :=
  ⟨rfl, rfl, rfl, rfl, rfl⟩

/-- Claim C7: whenever `GetSystemStatus`, `GetFundingWallet` or
`GetUserAssets` returns, the request's cancellation handle was invoked
before the return (the only textual exit path skipping the deferred
`cancel()` — the early return on a builder error — is unreachable, because
the builder either panics or hands back a nil error). -/
theorem cancel_invoked_on_every_return (pub priv : String) (now : Nat)
    (st : ClientAssets) (ctorErr : Option GoErr) (trS : TransportResult StatusBody)
    (trA trB : TransportResult AssetsBody) (o1 : StatusTrace) (o2 o3 : RefreshTrace) :
    (GetSystemStatus pub ctorErr trS = .ok o1 → o1.cancelCalled = true) ∧
    (GetFundingWallet pub priv now st ctorErr trA = .ok o2 → o2.cancelCalled = true) ∧
    (GetUserAssets pub priv now st ctorErr trB = .ok o3 → o3.cancelCalled = true) := by
  refine ⟨fun h => ?_, fun h => ?_, fun h => ?_⟩
  · cases ctorErr with
    | some e => cases h
    | none =>
      cases trS with
      | err e => injection h with h2; rw [← h2]
      | resp code body =>
        cases body with
        | malformed => injection h with h2; rw [← h2]
        | obj s msg => injection h with h2; rw [← h2]
  · cases ctorErr with
    | some e => cases h
    | none =>
      cases trA with
      | err e => injection h with h2; rw [← h2]
      | resp code body =>
        simp only [GetFundingWallet, buildPostRequest] at h
        split at h
        · injection h with h2; rw [← h2]
        · cases body with
          | malformed => injection h with h2; rw [← h2]
          | arr as => injection h with h2; rw [← h2]
  · cases ctorErr with
    | some e => cases h
    | none =>
      cases trB with
      | err e => injection h with h2; rw [← h2]
      | resp code body =>
        simp only [GetUserAssets, buildPostRequest] at h
        split at h
        · injection h with h2; rw [← h2]
        · cases body with
          | malformed => injection h with h2; rw [← h2]
          | arr as => injection h with h2; rw [← h2]

/-- Claim C7 witness: on a transport error the status gate returns with the
cancel handle having run. -/
theorem cancel_invoked_on_every_return_witness :
    GetSystemStatus "pk" none (.err .transportError) =
      .ok { result := (Maintenance, some .transportError), cancelCalled := true } ∧
    ({ result := (Maintenance, some GoErr.transportError),
       cancelCalled := true } : StatusTrace).cancelCalled = true :=
  ⟨rfl, (cancel_invoked_on_every_return "pk" "sk" 1 { funding := [], spot := [] }
      none (.err .transportError) (.err .transportError) (.err .transportError)
      { result := (Maintenance, some .transportError), cancelCalled := true }
      { state := { funding := [], spot := [] }, cancelCalled := true }
      { state := { funding := [], spot := [] }, cancelCalled := true }).1 rfl⟩

/-- Claim C8: `NewBinanceClient` exits the process with code 1 when either
sourced key is empty, and otherwise returns a client holding exactly the
sourced keys with both partitions initialized empty. -/
theorem newBinanceClient_aborts_or_initializes (privKey pubkey : String) :
    NewBinanceClient privKey pubkey =
      if privKey = "" ∨ pubkey = "" then .exited 1
      else .ok { publicKey := pubkey, privateKey := privKey,
                 funding := [], spot := [] } := by
  obtain ⟨l⟩ := privKey
  obtain ⟨k⟩ := pubkey
  cases l <;> cases k <;> simp [NewBinanceClient, String.ext_iff]

/-- Claim C9: both builders target the one fixed endpoint
(`endpoints[1]`), produce the URL base-endpoint + "/" + path (the GET with
the path untouched — no timestamp, no signature — the POST with the signed
path), attach the `X-MBX-APIKEY` header with the public key, and bind the
request to the 3-second cancellable timeout. -/
theorem built_request_endpoint_header_timeout (pub priv path : String) (now : Nat) :
    endpoints.getD 1 "" = "https://api-gcp.binance.com" ∧
    buildURL path = "https://api-gcp.binance.com" ++ "/" ++ path ∧
    buildGetRequest pub path none = .ok {
      req := {
        method := "GET"
        url := "https://api-gcp.binance.com/" ++ path
        header := [("X-MBX-APIKEY", pub)]
        timeoutMillis := 3000 }
      err := none } ∧
    buildPostRequest pub priv path now none = .ok {
      req := {
        method := "POST"
        url := "https://api-gcp.binance.com/" ++ signrequest priv path now
        header := [("X-MBX-APIKEY", pub)]
        timeoutMillis := 3000 }
      err := none } :=
  ⟨rfl, rfl, rfl, rfl⟩

/-- Claim C10: a body that decodes successfully but carries no status field
(the JSON object `{}`) leaves the `uint` status at its zero value, so
`GetSystemStatus` returns `(Online, nil)` — the Maintenance fail-safe never
sees a well-formed body that merely omits the field. -/
theorem getSystemStatus_empty_object_returns_online (pub : String) (code : Nat) :
    GetSystemStatus pub none (.resp code (.obj none none)) =
      .ok { result := (Online, none), cancelCalled := true } := rfl

end Binance
